import Mathlib

/-!
Verification of the byte-segment primitives, shared split utility and the
`AtIdentifier` union type of the `atmo_core` crate (src/atmo_core/src/lib.rs).

Byte slices are embedded as `List Nat` of byte values; the ASCII character
classes mirror the `u8` methods used by the source.
-/

namespace Atmo

/-- ASCII 45, the byte `-`. -/
def dashByte : Nat := 45

/-- ASCII 46, the byte `.`. -/
def dotByte : Nat := 46

/-- Embedding of Rust `u8::is_ascii_alphabetic`. -/
def isAsciiAlphabetic (b : Nat) : Bool :=
  (65 ≤ b && b ≤ 90) || (97 ≤ b && b ≤ 122)

/-- Embedding of Rust `u8::is_ascii_digit`. -/
def isAsciiDigit (b : Nat) : Bool :=
  48 ≤ b && b ≤ 57

/-- Embedding of Rust `u8::is_ascii_alphanumeric`. -/
def isAsciiAlphanumeric (b : Nat) : Bool :=
  isAsciiAlphabetic b || isAsciiDigit b

/-- `SEGMENT_LEN_RANGE: RangeInclusive<usize> = 1..=63` (lib.rs line 48),
embedded as the pair of its endpoints. -/
def SEGMENT_LEN_RANGE : Nat × Nat := (1, 63)

/-- `RangeInclusive::contains`. -/
def rangeContains (r : Nat × Nat) (n : Nat) : Bool :=
  r.1 ≤ n && n ≤ r.2

/-- `is_segment_char` (lib.rs lines 106-108):
`b.is_ascii_alphanumeric() || *b == b'-'`. -/
def is_segment_char (b : Nat) : Bool :=
  isAsciiAlphanumeric b || b == dashByte

/-- `is_valid_domain_segment` (lib.rs lines 98-104):
`SEGMENT_LEN_RANGE.contains(&s.len()) && s[0] != b'-' && s[s.len()-1] != b'-'
 && s.iter().all(is_segment_char)`.
The two indexings are rendered with `getD`; they are reached only when the
length bound already holds, which `is_valid_domain_segment_checked` makes
explicit. -/
def is_valid_domain_segment (s : List Nat) : Bool :=
  rangeContains SEGMENT_LEN_RANGE s.length
    && s.getD 0 0 != dashByte
    && s.getD (s.length - 1) 0 != dashByte
    && s.all is_segment_char

/-- `is_valid_tld` (lib.rs lines 93-96):
`is_valid_domain_segment(s) && s[0].is_ascii_alphabetic()`. -/
def is_valid_tld (s : List Nat) : Bool :=
  is_valid_domain_segment s && isAsciiAlphabetic (s.getD 0 0)

/-- `is_valid_nsid_name` (lib.rs lines 110-116):
`SEGMENT_LEN_RANGE.contains(&s.len()) && s[0] != b'-' && s[s.len()-1] != b'-'
 && s.iter().all(|b| b.is_ascii_alphabetic())`. -/
def is_valid_nsid_name (s : List Nat) : Bool :=
  rangeContains SEGMENT_LEN_RANGE s.length
    && s.getD 0 0 != dashByte
    && s.getD (s.length - 1) 0 != dashByte
    && s.all isAsciiAlphabetic

/-- Rust slice indexing `s[i]`, which panics (here: `none`) out of bounds. -/
def index? (s : List Nat) (i : Nat) : Option Nat :=
  s.get? i

/-- `is_valid_domain_segment` with Rust's panicking indexing made explicit:
each `&&` short-circuits left to right exactly as in the source, and an
out-of-bounds `s[i]` is `none`. -/
def is_valid_domain_segment_checked (s : List Nat) : Option Bool :=
  if rangeContains SEGMENT_LEN_RANGE s.length then
    match index? s 0 with
    | none => none
    | some b0 =>
      if b0 != dashByte then
        match index? s (s.length - 1) with
        | none => none
        | some bl =>
          if bl != dashByte then some (s.all is_segment_char)
          else some false
      else some false
  else some false

/-- `is_valid_tld` with panicking indexing made explicit. -/
def is_valid_tld_checked (s : List Nat) : Option Bool :=
  match is_valid_domain_segment_checked s with
  | none => none
  | some false => some false
  | some true =>
    match index? s 0 with
    | none => none
    | some b0 => some (isAsciiAlphabetic b0)

/-- `is_valid_nsid_name` with panicking indexing made explicit. -/
def is_valid_nsid_name_checked (s : List Nat) : Option Bool :=
  if rangeContains SEGMENT_LEN_RANGE s.length then
    match index? s 0 with
    | none => none
    | some b0 =>
      if b0 != dashByte then
        match index? s (s.length - 1) with
        | none => none
        | some bl =>
          if bl != dashByte then some (s.all isAsciiAlphabetic)
          else some false
      else some false
  else some false

/-- `split_once` (lib.rs lines 83-91):
`let index = slice.iter().position(pred)?;
 Some((&slice[..index], &slice[index + 1..]))`. -/
def split_once (s : List Nat) (p : Nat → Bool) : Option (List Nat × List Nat) :=
  match s.findIdx? p with
  | none => none
  | some i => some (s.take i, s.drop (i + 1))

/-- Modelled from the spec: the per-grammar error taxonomy
(src/atmo_core/src/error.rs is not among the sources); one failure kind per
identifier grammar plus the generic `at_identifier` fallback. Only the kinds
the `AtIdentifier` claims mention are needed here. -/
inductive ParseError where
  | did
  | handle
  | atIdentifier
deriving DecidableEq, Repr

/-- Modelled from the spec: the validated `Did` wrapper
(src/atmo_core/src/did.rs is not among the sources); an owned, immutable
wrapper around the accepted text. -/
structure Did where
  bytes : List Nat
deriving DecidableEq, Repr

/-- Modelled from the spec: the validated `Handle` wrapper
(src/atmo_core/src/handle.rs is not among the sources). -/
structure Handle where
  bytes : List Nat
deriving DecidableEq, Repr

/-- Rust `u8::is_ascii_lowercase`. -/
def isAsciiLowerAlpha (b : Nat) : Bool :=
  97 ≤ b && b ≤ 122

/-- Generic unreserved URI characters: alphanumeric, `-`, `.`, `_`, `~`. -/
def isUriUnreserved (b : Nat) : Bool :=
  isAsciiAlphanumeric b || b == 45 || b == 46 || b == 95 || b == 126

/-- Match a required literal at the head of the input, returning the rest. -/
def stripLeading : List Nat → List Nat → Option (List Nat)
  | [], s => some s
  | _ :: _, [] => none
  | l :: ls, b :: bs => if l == b then stripLeading ls bs else none

/-- Modelled from the spec: `Did::from_str` (src/atmo_core/src/did.rs is not
among the sources): the fixed literal `did:` must lead; the method tag is
lowercase-letter-and-digit only; the remainder is validated against the
generic unreserved-URI charset; both parts nonempty. -/
def didFromStr (s : List Nat) : Except ParseError Did :=
  match stripLeading [100, 105, 100, 58] s with
  | none => .error .did
  | some rest =>
    match split_once rest (fun b => b == 58) with
    | none => .error .did
    | some (method, id) =>
      if (!method.isEmpty)
          && method.all (fun b => isAsciiLowerAlpha b || isAsciiDigit b)
          && (!id.isEmpty) && id.all isUriUnreserved
      then .ok ⟨s⟩ else .error .did

/-- Modelled from the spec: `Handle::from_str` (src/atmo_core/src/handle.rs is
not among the sources): split on `.`; at least two segments; every non-final
segment a valid domain segment; the final segment a valid TLD. -/
def handleFromStr (s : List Nat) : Except ParseError Handle :=
  let segs := s.splitOn dotByte
  if decide (2 ≤ segs.length)
      && segs.dropLast.all is_valid_domain_segment
      && is_valid_tld (segs.getLastD [])
  then .ok ⟨s⟩ else .error .handle

/-- `AtIdentifier` (lib.rs lines 50-55): a closed union of `Did` and
`Handle`. -/
inductive AtIdentifier where
  | did (d : Did)
  | handle (h : Handle)
deriving DecidableEq, Repr

/-- `AtIdentifier::from_str` (lib.rs lines 57-66): try `Did` parsing, map the
success into the `Did` variant; on failure try `Handle` parsing, mapping the
success into the `Handle` variant; any remaining failure is replaced by
`ParseError::at_identifier()`. -/
def atIdentifierFromStr (s : List Nat) : Except ParseError AtIdentifier :=
  match (didFromStr s).map AtIdentifier.did with
  | .ok v => .ok v
  | .error _ =>
    match (handleFromStr s).map AtIdentifier.handle with
    | .ok v => .ok v
    | .error _ => .error .atIdentifier

/-- Modelled from the spec: the structured-data values exchanged with the
(de)serialization framework; identifier types use only text scalars, and any
other structured value is collapsed into `nonText`. -/
inductive SerdeValue where
  | text (s : List Nat)
  | nonText
deriving DecidableEq, Repr

/-- Modelled from the spec: deserializer-side errors; either the framework's
own decoding failure or a custom message carrying a grammar parse failure. -/
inductive DesError where
  | decodeFailure
  | custom (e : ParseError)
deriving DecidableEq, Repr

/-- Modelled from the spec: reading an arbitrary text scalar from the
framework, as the `Cow` string deserialization step does. -/
def decodeTextScalar : SerdeValue → Except DesError (List Nat)
  | .text s => .ok s
  | .nonText => .error .decodeFailure

/-- The deserialize-via-from-str bridge (lib.rs lines 118-133, instantiated
for `AtIdentifier` at line 68): decode a text value, then run `from_str` on
it, mapping the parse failure to a custom deserializer error. -/
def atIdentifierDeserialize (v : SerdeValue) : Except DesError AtIdentifier :=
  match decodeTextScalar v with
  | .error e => .error e
  | .ok s =>
    match atIdentifierFromStr s with
    | .ok x => .ok x
    | .error e => .error (.custom e)

/-- Modelled from the spec: `Did::serialize` renders the Did as a single text
scalar. -/
def didSerialize (d : Did) : SerdeValue := .text d.bytes

/-- Modelled from the spec: `Handle::serialize` renders the Handle as a
single text scalar. -/
def handleSerialize (h : Handle) : SerdeValue := .text h.bytes

/-- `AtIdentifier::serialize` (lib.rs lines 70-81): match on the variant and
delegate to its serialization. -/
def atIdentifierSerialize : AtIdentifier → SerdeValue
  | .did d => didSerialize d
  | .handle h => handleSerialize h

/-- An ASCII letter is never the hyphen byte. -/
theorem alpha_ne_dash (b : Nat) (h : isAsciiAlphabetic b = true) :
    b ≠ dashByte := by
  simp only [isAsciiAlphabetic, Bool.or_eq_true, Bool.and_eq_true,
    decide_eq_true_eq, dashByte] at *
  omega

/-- The first byte of a nonempty list, as `getD 0` computes it. -/
theorem getD_zero_cons (a : Nat) (t : List Nat) : (a :: t).getD 0 0 = a := rfl

/-- The last byte of a nonempty list, as `getD (len - 1)` computes it. -/
theorem getLast?_cons_eq_getD (a : Nat) (t : List Nat) :
    (a :: t).getLast? = some ((a :: t).getD ((a :: t).length - 1) 0) := by
  have h : (a :: t).length - 1 < (a :: t).length := by
    simp only [List.length_cons]
    omega
  rw [List.getLast?_eq_getElem?, List.getD_eq_getElem?_getD,
    List.getElem?_eq_getElem h]
  rfl

end Atmo

namespace Atmo

/-- C1: `is_valid_domain_segment` accepts exactly the byte slices of length
1..=63 whose first and last bytes are not `-` and whose bytes are all ASCII
alphanumeric or `-`; length 63 is accepted, 64 rejected, 1 accepted, and the
empty slice rejected. -/
theorem is_valid_domain_segment_iff :
    (∀ s : List Nat, is_valid_domain_segment s = true ↔
      (1 ≤ s.length ∧ s.length ≤ 63 ∧
        s.head? ≠ some dashByte ∧ s.getLast? ≠ some dashByte ∧
        ∀ b ∈ s, isAsciiAlphanumeric b = true ∨ b = dashByte))
    ∧ is_valid_domain_segment (List.replicate 63 97) = true
    ∧ is_valid_domain_segment (List.replicate 64 97) = false
    ∧ is_valid_domain_segment [97] = true
    ∧ is_valid_domain_segment [] = false := by
  refine ⟨fun s => ?_, by decide, by decide, by decide, by decide⟩
  cases s with
  | nil => simp [is_valid_domain_segment, rangeContains, SEGMENT_LEN_RANGE]
  | cons a t =>
    rw [getLast?_cons_eq_getD a t]
    simp only [is_valid_domain_segment, rangeContains, SEGMENT_LEN_RANGE,
      Bool.and_eq_true, bne_iff_ne, ne_eq, decide_eq_true_eq,
      List.all_eq_true, is_segment_char, Bool.or_eq_true, beq_iff_eq,
      getD_zero_cons, List.head?_cons, Option.some.injEq]
    tauto

/-- C2: `is_valid_nsid_name` accepts exactly the byte slices of length 1..=63
all of whose bytes are ASCII alphabetic; any slice containing a digit or a
hyphen is rejected. -/
theorem is_valid_nsid_name_iff :
    (∀ s : List Nat, is_valid_nsid_name s = true ↔
      (1 ≤ s.length ∧ s.length ≤ 63 ∧ ∀ b ∈ s, isAsciiAlphabetic b = true))
    ∧ ∀ s : List Nat, ∀ b ∈ s, (isAsciiDigit b = true ∨ b = dashByte) →
        is_valid_nsid_name s = false := by
  have key : ∀ s : List Nat, is_valid_nsid_name s = true ↔
      (1 ≤ s.length ∧ s.length ≤ 63 ∧ ∀ b ∈ s, isAsciiAlphabetic b = true) := by
    intro s
    cases s with
    | nil => simp [is_valid_nsid_name, rangeContains, SEGMENT_LEN_RANGE]
    | cons a t =>
      simp only [is_valid_nsid_name, rangeContains, SEGMENT_LEN_RANGE,
        Bool.and_eq_true, bne_iff_ne, ne_eq, decide_eq_true_eq,
        List.all_eq_true, getD_zero_cons]
      constructor
      · rintro ⟨⟨⟨⟨h1, h2⟩, _⟩, _⟩, hall⟩
        exact ⟨h1, h2, hall⟩
      · rintro ⟨h1, h2, hall⟩
        refine ⟨⟨⟨⟨h1, h2⟩, ?_⟩, ?_⟩, hall⟩
        · exact alpha_ne_dash a (hall a (List.mem_cons_self a t))
        · have hmem : (a :: t).getD ((a :: t).length - 1) 0 ∈ a :: t := by
            rw [List.getD_eq_getElem?_getD]
            have h : (a :: t).length - 1 < (a :: t).length := by
              simp only [List.length_cons]; omega
            rw [List.getElem?_eq_getElem h]
            exact List.getElem_mem h
          exact alpha_ne_dash _ (hall _ hmem)
  refine ⟨key, fun s b hmem hbad => ?_⟩
  cases h : is_valid_nsid_name s with
  | false => rfl
  | true =>
    exfalso
    have halpha := ((key s).mp h).2.2 b hmem
    simp only [isAsciiAlphabetic, isAsciiDigit, Bool.or_eq_true,
      Bool.and_eq_true, decide_eq_true_eq, dashByte] at halpha hbad
    omega

/-- Witness for C2 on a slice containing a hyphen. -/
theorem is_valid_nsid_name_iff_witness :
    is_valid_nsid_name [97, 45, 98] = false :=
  is_valid_nsid_name_iff.2 [97, 45, 98] 45 (by decide) (Or.inr rfl)

/-- C3: `is_valid_tld` accepts exactly the valid domain segments whose first
byte is an ASCII letter. -/
theorem is_valid_tld_iff :
    ∀ s : List Nat, is_valid_tld s = true ↔
      (is_valid_domain_segment s = true ∧
        ∃ b, s.head? = some b ∧ isAsciiAlphabetic b = true) := by
  intro s
  cases s with
  | nil => simp [is_valid_tld, is_valid_domain_segment, rangeContains,
      SEGMENT_LEN_RANGE]
  | cons a t =>
    simp only [is_valid_tld, Bool.and_eq_true, getD_zero_cons,
      List.head?_cons, Option.some.injEq]
    constructor
    · rintro ⟨hd, ha⟩
      exact ⟨hd, a, rfl, ha⟩
    · rintro ⟨hd, b, rfl, hb⟩
      exact ⟨hd, hb⟩

/-- The `if` cascade produced by Rust's short-circuiting `&&` chains, once
both indexings are known in bounds, equals the four-fold conjunction. -/
theorem ite_and_chain (A B C D : Bool) :
    (if A then
        (if B then (if C then some D else some false) else some false)
      else some false)
    = some (A && B && C && D) := by
  cases A <;> cases B <;> cases C <;> simp

/-- C9: the three segment predicates are total: under Rust's panicking
indexing semantics (`none` = panic), each returns `some` of the value the
plain predicate computes, for every byte slice including the empty one. -/
theorem segment_predicates_total :
    ∀ s : List Nat,
      is_valid_domain_segment_checked s = some (is_valid_domain_segment s)
      ∧ is_valid_tld_checked s = some (is_valid_tld s)
      ∧ is_valid_nsid_name_checked s = some (is_valid_nsid_name s) := by
  intro s
  cases s with
  | nil =>
    refine ⟨?_, ?_, ?_⟩ <;> decide
  | cons a t =>
    have hlast : (a :: t).length - 1 < (a :: t).length := by
      simp only [List.length_cons]; omega
    have hidx : index? (a :: t) ((a :: t).length - 1)
        = some ((a :: t).getD ((a :: t).length - 1) 0) := by
      rw [index?, List.get?_eq_getElem?, List.getD_eq_getElem?_getD,
        List.getElem?_eq_getElem hlast]
      rfl
    have hidx0 : index? (a :: t) 0 = some a := rfl
    have hdom : is_valid_domain_segment_checked (a :: t)
        = some (is_valid_domain_segment (a :: t)) := by
      rw [is_valid_domain_segment_checked, hidx0, hidx]
      rw [is_valid_domain_segment, getD_zero_cons]
      exact ite_and_chain _ _ _ _
    have hnsid : is_valid_nsid_name_checked (a :: t)
        = some (is_valid_nsid_name (a :: t)) := by
      rw [is_valid_nsid_name_checked, hidx0, hidx]
      rw [is_valid_nsid_name, getD_zero_cons]
      exact ite_and_chain _ _ _ _
    refine ⟨hdom, ?_, hnsid⟩
    rw [is_valid_tld_checked, hdom, is_valid_tld, getD_zero_cons]
    cases h : is_valid_domain_segment (a :: t) with
    | false => simp
    | true => rw [hidx0]; simp

/-- C10: every byte slice accepted by `is_valid_nsid_name` is also accepted
by `is_valid_domain_segment` and by `is_valid_tld`. -/
theorem nsid_name_subset_domain_and_tld :
    ∀ s : List Nat, is_valid_nsid_name s = true →
      is_valid_domain_segment s = true ∧ is_valid_tld s = true := by
  intro s h
  cases s with
  | nil => simp [is_valid_nsid_name, rangeContains, SEGMENT_LEN_RANGE] at h
  | cons a t =>
    simp only [is_valid_nsid_name, Bool.and_eq_true, List.all_eq_true] at h
    obtain ⟨⟨⟨hlen, h0⟩, hl⟩, hall⟩ := h
    have hdom : is_valid_domain_segment (a :: t) = true := by
      simp only [is_valid_domain_segment, Bool.and_eq_true, List.all_eq_true]
      refine ⟨⟨⟨hlen, h0⟩, hl⟩, fun b hb => ?_⟩
      simp only [is_segment_char, isAsciiAlphanumeric, Bool.or_eq_true]
      exact Or.inl (Or.inl (hall b hb))
    refine ⟨hdom, ?_⟩
    simp only [is_valid_tld, Bool.and_eq_true, getD_zero_cons]
    exact ⟨hdom, hall a (List.mem_cons_self a t)⟩

/-- C4: `split_once` returns `none` exactly when no byte satisfies the
predicate; otherwise it splits at the first satisfying byte, which belongs to
neither returned part. -/
theorem split_once_spec :
    ∀ (s : List Nat) (p : Nat → Bool),
      (split_once s p = none ↔ ∀ b ∈ s, p b = false)
      ∧ ∀ before after, split_once s p = some (before, after) →
          ∃ b, p b = true ∧ s = before ++ b :: after
            ∧ ∀ b' ∈ before, p b' = false := by
  intro s p
  constructor
  · rw [split_once]
    cases h : s.findIdx? p with
    | none =>
      simp only [true_iff]
      exact List.findIdx?_eq_none_iff.mp h
    | some i =>
      obtain ⟨hlt, hp, -⟩ := List.findIdx?_eq_some_iff_getElem.mp h
      constructor
      · intro hc
        exact absurd hc (by simp)
      · intro hall
        exact absurd hp (by simp [hall s[i] (s.getElem_mem hlt)])
  · intro before after hsome
    rw [split_once] at hsome
    cases h : s.findIdx? p with
    | none => rw [h] at hsome; exact absurd hsome (by simp)
    | some i =>
      rw [h] at hsome
      obtain ⟨hlt, hp, hmin⟩ := List.findIdx?_eq_some_iff_getElem.mp h
      obtain ⟨hb, ha⟩ : s.take i = before ∧ s.drop (i + 1) = after := by
        have := Option.some.inj hsome
        exact ⟨congrArg Prod.fst this, congrArg Prod.snd this⟩
      refine ⟨s[i], hp, ?_, ?_⟩
      · rw [← hb, ← ha, ← List.drop_eq_getElem_cons hlt,
          List.take_append_drop]
      · intro b' hb'
        rw [← hb] at hb'
        obtain ⟨j, hj, rfl⟩ := List.mem_iff_getElem.mp hb'
        have hji : j < i := by
          have := hj
          rw [List.length_take] at this
          omega
        rw [List.getElem_take]
        exact Bool.not_eq_true _ ▸ hmin j hji

/-- Witness for C4 on splitting `a.b` at the dot. -/
theorem split_once_spec_witness :
    ∃ b, (b == dotByte) = true
      ∧ [97, 46, 98] = [97] ++ b :: [98]
      ∧ ∀ b' ∈ [97], (b' == dotByte) = false :=
  (split_once_spec [97, 46, 98] (fun x => x == dotByte)).2 [97] [98] rfl

/-- Witness for C10 at the one-letter slice `[97]`. -/
theorem nsid_name_subset_domain_and_tld_witness :
    is_valid_nsid_name [97] = true
      ∧ is_valid_domain_segment [97] = true ∧ is_valid_tld [97] = true :=
  ⟨by decide, nsid_name_subset_domain_and_tld [97] (by decide)⟩

example : is_valid_domain_segment [97, 98, 45, 99] = true := by decide
example : is_valid_domain_segment [45, 98] = false := by decide
example : is_valid_domain_segment [98, 45] = false := by decide
example : is_valid_domain_segment [] = false := by decide
example : is_valid_domain_segment (List.replicate 63 97) = true := by decide
example : is_valid_domain_segment (List.replicate 64 97) = false := by decide
example : is_valid_tld [57, 97] = false := by decide
example : is_valid_tld [97, 57] = true := by decide
example : is_valid_nsid_name [97, 57] = false := by decide
example : is_valid_nsid_name [97, 98] = true := by decide
example : split_once [97, 46, 98, 46, 99] (fun b => b == dotByte)
    = some ([97], [98, 46, 99]) := by decide
example : split_once [97, 98] (fun b => b == dotByte) = none := by decide

example : didFromStr [100, 105, 100, 58, 112, 108, 99, 58, 97, 98, 99]
    = Except.ok ⟨[100, 105, 100, 58, 112, 108, 99, 58, 97, 98, 99]⟩ := by rfl
example : didFromStr [97, 46, 99] = Except.error ParseError.did := by rfl
example : handleFromStr [97, 46, 99] = Except.ok ⟨[97, 46, 99]⟩ := by rfl
example : handleFromStr [97] = Except.error ParseError.handle := by rfl
example : atIdentifierFromStr [97, 46, 99]
    = Except.ok (AtIdentifier.handle ⟨[97, 46, 99]⟩) := by rfl
example : atIdentifierFromStr []
    = Except.error ParseError.atIdentifier := by rfl

/-- C5: when `Did` parsing accepts `s`, `AtIdentifier` parsing yields the
`Did` variant holding that value; the `Handle` variant can only arise when
`Did` parsing failed. -/
theorem atIdentifier_did_first :
    ∀ s : List Nat,
      (∀ d : Did, didFromStr s = Except.ok d →
        atIdentifierFromStr s = Except.ok (AtIdentifier.did d))
      ∧ (∀ h : Handle,
          atIdentifierFromStr s = Except.ok (AtIdentifier.handle h) →
          ∃ e, didFromStr s = Except.error e) := by
  intro s
  constructor
  · intro d hd
    simp [atIdentifierFromStr, hd, Except.map]
  · intro h hres
    cases hd : didFromStr s with
    | ok d =>
      simp [atIdentifierFromStr, hd, Except.map] at hres
    | error e => exact ⟨e, rfl⟩

/-- Witness for C5 on the bytes of `did:plc:abc`. -/
theorem atIdentifier_did_first_witness :
    atIdentifierFromStr [100, 105, 100, 58, 112, 108, 99, 58, 97, 98, 99]
      = Except.ok (AtIdentifier.did
          ⟨[100, 105, 100, 58, 112, 108, 99, 58, 97, 98, 99]⟩) :=
  (atIdentifier_did_first _).1 _ (by rfl)

/-- C6: when both `Did` and `Handle` parsing fail, `AtIdentifier` parsing
returns exactly the generic at-identifier error, and no other error value is
ever produced by it. -/
theorem atIdentifier_error_collapse :
    ∀ s : List Nat,
      ((didFromStr s).isOk = false → (handleFromStr s).isOk = false →
        atIdentifierFromStr s = Except.error ParseError.atIdentifier)
      ∧ ∀ e, atIdentifierFromStr s = Except.error e →
          e = ParseError.atIdentifier := by
  intro s
  cases hd : didFromStr s with
  | ok d =>
    constructor
    · intro hdo
      simp [Except.isOk, Except.toBool, hd] at hdo
    · intro e he
      simp [atIdentifierFromStr, hd, Except.map] at he
  | error ed =>
    cases hh : handleFromStr s with
    | ok h =>
      constructor
      · intro _ hho
        simp [Except.isOk, Except.toBool, hh] at hho
      · intro e he
        simp [atIdentifierFromStr, hd, hh, Except.map] at he
    | error eh =>
      have hout : atIdentifierFromStr s = Except.error ParseError.atIdentifier := by
        simp [atIdentifierFromStr, hd, hh, Except.map]
      constructor
      · intro _ _
        exact hout
      · intro e he
        rw [hout] at he
        exact (Except.error.inj he).symm

/-- Witness for C6 on the empty input, rejected by both grammars. -/
theorem atIdentifier_error_collapse_witness :
    atIdentifierFromStr [] = Except.error ParseError.atIdentifier :=
  (atIdentifier_error_collapse []).1 (by decide) (by decide)

/-- C7: structured deserialization of a text scalar succeeds exactly when
`from_str` succeeds on the decoded text, and yields the same value. -/
theorem atIdentifier_deserialize_iff :
    ∀ (s : List Nat) (x : AtIdentifier),
      atIdentifierDeserialize (SerdeValue.text s) = Except.ok x ↔
        atIdentifierFromStr s = Except.ok x := by
  intro s x
  cases h : atIdentifierFromStr s with
  | ok y => simp [atIdentifierDeserialize, decodeTextScalar, h]
  | error e => simp [atIdentifierDeserialize, decodeTextScalar, h]

/-- C8: serializing an `AtIdentifier` produces exactly the held variant's own
serialization, a bare text scalar with no added wrapper. -/
theorem atIdentifier_serialize_delegates :
    (∀ d : Did, atIdentifierSerialize (AtIdentifier.did d) = didSerialize d
      ∧ atIdentifierSerialize (AtIdentifier.did d) = SerdeValue.text d.bytes)
    ∧ (∀ h : Handle,
        atIdentifierSerialize (AtIdentifier.handle h) = handleSerialize h
        ∧ atIdentifierSerialize (AtIdentifier.handle h)
            = SerdeValue.text h.bytes) :=
  ⟨fun _ => ⟨rfl, rfl⟩, fun _ => ⟨rfl, rfl⟩⟩

end Atmo
